import Mathlib

/-!
Verification of the multi-protocol health-monitoring engine of the
`status` service (package `monitor`, with its storage collaborator).

The Go source is shallowly embedded: `time.Duration` values become `Int`
nanoseconds, timestamps become abstract `Nat` ticks, `float64` uptime
percentages become `ℚ`, Go slices become `List`, and the `statuses` map
becomes an association list keyed by service name.
-/

namespace StatusMonitor

/-- Type `Status` from monitor.go: the classification of a service. -/
inductive Status where
  | operational
  | degraded
  | down
  | unknown
deriving DecidableEq, Repr

/-- One nanosecond-denominated second, as the Go `time.Second`. -/
def second : Int := 1000000000

/-- The Go `time.Millisecond` in nanoseconds. -/
def millisecond : Int := 1000000

/-- Structure `HistoryPoint` from monitor.go: a single check result kept in history. -/
structure HistoryPoint where
  timestamp : Nat
  responseTimeMs : Int
  status : Status
  statusCode : Int
deriving DecidableEq, Repr

/-- Structure `ServiceStatus` from monitor.go: the current state of a monitored service. -/
structure ServiceStatus where
  name : String
  group : String
  url : String
  description : String
  status : Status
  responseTime : Int
  responseTimeMs : Int
  statusCode : Int
  lastCheck : Nat
  uptime : ℚ
  errorMessage : String
  history : List HistoryPoint
deriving DecidableEq, Repr

/-- Constant `maxHistory` set in `NewMonitor`: keep 90 data points. -/
def maxHistory : Nat := 90

/-- The `switch status.Status` counting loop of `GetOverallStatus`:
folds over the stored statuses accumulating `(downCount, degradedCount)`. -/
def overallCounts (l : List Status) : Nat × Nat :=
  l.foldl
    (fun acc s =>
      match s with
      | Status.down => (acc.1 + 1, acc.2)
      | Status.degraded => (acc.1, acc.2 + 1)
      | _ => acc)
    (0, 0)

/-- Function `GetOverallStatus` from monitor.go, as a function of the multiset of
current classifications held in the `statuses` map. -/
def GetOverallStatus (l : List Status) : Status :=
  let total := l.length
  if total = 0 then
    Status.operational
  else
    let counts := overallCounts l
    if counts.1 > total / 2 then
      Status.down
    else if counts.1 > 0 || counts.2 > 0 then
      Status.degraded
    else
      Status.operational

/-- Packet `quicProbe` from `checkQUIC`: the minimal QUIC version-negotiation
probe packet sent over UDP. -/
def quicProbe : List Nat :=
  [0xc0,
   0x00, 0x00, 0x00, 0x01,
   0x08,
   0x00, 0x00, 0x00, 0x00, 0x00, 0x00, 0x00, 0x00,
   0x00]

/-- The Go `time.Duration.Milliseconds()`: integer division by 10^6,
truncated toward zero. -/
def durationMilliseconds (d : Int) : Int := Int.tdiv d millisecond

/-- Decision logic of `checkHTTP` (the classification after a response
arrived): given the response status code, the configured expected status,
whether the body check passed (`strings.Contains` on the expected
substring, `true` when none is configured), and the measured response
time in nanoseconds, return the classification and the error message. -/
def classifyHTTP (statusCode expectedStatus : Int) (bodyMatch : Bool)
    (responseTime : Int) : Status × String :=
  if statusCode = expectedStatus ∧ bodyMatch then
    if responseTime < 2 * second then
      (Status.operational, "")
    else if responseTime < 5 * second then
      (Status.degraded, "slow response time")
    else
      (Status.degraded, "very slow response time")
  else if !bodyMatch then
    (Status.down, "expected body not found")
  else
    (Status.down, s!"unexpected status code: {statusCode}")

/-- Outcome of a probe as handed to `updateStatus`: classification,
numeric code and message. -/
structure ProbeOutcome where
  status : Status
  code : Int
  errMsg : String
deriving DecidableEq, Repr

/-- Decision logic of `checkTLS` after a verified handshake with at least
one peer certificate: `daysUntilExpiry` is `int(time.Until(NotAfter).Hours()/24)`
and `tlsWarnDays` is the configured `TLSWarnDays` (0 when unset). -/
def classifyTLS (daysUntilExpiry tlsWarnDays : Int) : ProbeOutcome :=
  let warnDays := if tlsWarnDays = 0 then 30 else tlsWarnDays
  if daysUntilExpiry ≤ 0 then
    ⟨Status.down, daysUntilExpiry, "certificate expired"⟩
  else if daysUntilExpiry ≤ 7 then
    ⟨Status.down, daysUntilExpiry, s!"certificate expires in {daysUntilExpiry} days"⟩
  else if daysUntilExpiry ≤ warnDays then
    ⟨Status.degraded, daysUntilExpiry, s!"certificate expires in {daysUntilExpiry} days"⟩
  else
    ⟨Status.operational, daysUntilExpiry, ""⟩

/-- The `h.Status == StatusOperational || h.Status == StatusDegraded`
test of the uptime loop in `updateStatus`. -/
def isUp : Status → Bool
  | Status.operational => true
  | Status.degraded => true
  | _ => false

/-- The body of `updateStatus` acting on the located `ServiceStatus`:
overwrite the current fields, append a `HistoryPoint`, trim the history
to `maxHistory`, and recompute the uptime from the full history. -/
def applyCheck (s : ServiceStatus) (status : Status) (responseTime : Int)
    (statusCode : Int) (errMsg : String) (now : Nat) : ServiceStatus :=
  let point : HistoryPoint :=
    ⟨now, durationMilliseconds responseTime, status, statusCode⟩
  let history₁ := s.history ++ [point]
  let history₂ :=
    if history₁.length > maxHistory then
      history₁.drop (history₁.length - maxHistory)
    else
      history₁
  let uptime :=
    if history₂.length > 0 then
      ((history₂.countP (fun h => isUp h.status) : ℚ) / (history₂.length : ℚ)) * 100
    else
      s.uptime
  { s with
    status := status
    responseTime := responseTime
    responseTimeMs := durationMilliseconds responseTime
    statusCode := statusCode
    lastCheck := now
    errorMessage := errMsg
    history := history₂
    uptime := uptime }

/-- Structure `storage.CheckPoint`: one persisted check result. The Go code stores
the classification as its string form and casts it back on restore; the
round trip is the identity, so the classification is kept directly. -/
structure CheckPoint where
  timestamp : Nat
  responseTimeMs : Int
  status : Status
  statusCode : Int
deriving DecidableEq, Repr

/-- Structure `storage.ServiceCheckHistory`: the per-service persisted snapshot. -/
structure ServiceCheckHistory where
  serviceName : String
  history : List CheckPoint
  uptime : ℚ
  lastCheck : Nat
  errorMessage : String
deriving DecidableEq, Repr

/-- Conversion used when persisting (`storage.CheckPoint{...}` in
`updateStatus`). -/
def toCheckPoint (h : HistoryPoint) : CheckPoint :=
  ⟨h.timestamp, h.responseTimeMs, h.status, h.statusCode⟩

/-- Conversion used when restoring (`HistoryPoint{...}` in `NewMonitor`). -/
def ofCheckPoint (cp : CheckPoint) : HistoryPoint :=
  ⟨cp.timestamp, cp.responseTimeMs, cp.status, cp.statusCode⟩

/-- The arguments of `storage.SaveServiceCheckHistory` as invoked by
`updateStatus`. -/
structure PersistCall where
  serviceName : String
  history : List CheckPoint
  uptime : ℚ
  lastCheck : Nat
  errorMessage : String
deriving DecidableEq, Repr

/-- The `statuses` map of the `Monitor`, as an association list. -/
abbrev Store := List (String × ServiceStatus)

/-- Go map assignment `m.statuses[name] = v` on an existing key. -/
def storeSet (store : Store) (name : String) (v : ServiceStatus) : Store :=
  store.map (fun p => if p.1 = name then (name, v) else p)

/-- Function `updateStatus` from monitor.go at the store level: locate the service
(returning unchanged state when absent), apply the update, persist the
full snapshot, and publish a copy. The second component is the
`SaveServiceCheckHistory` call (`none` when nothing was persisted), the
third the status published to subscribers (`none` when nothing was
published). -/
def updateStatus (store : Store) (name : String) (status : Status)
    (responseTime : Int) (statusCode : Int) (errMsg : String) (now : Nat) :
    Store × Option PersistCall × Option ServiceStatus :=
  match store.lookup name with
  | none => (store, none, none)
  | some svcStatus =>
      let s := applyCheck svcStatus status responseTime statusCode errMsg now
      (storeSet store name s,
       some ⟨name, s.history.map toCheckPoint, s.uptime, s.lastCheck, s.errorMessage⟩,
       some s)

/-- The fields of `config.Service` read by `NewMonitor`. -/
structure Service where
  name : String
  group : String
  url : String
  description : String
deriving DecidableEq, Repr

/-- Initialisation of one `ServiceStatus` in `NewMonitor`: the fresh
status, then restoration of the persisted snapshot when one exists. -/
def restoreStatus (svc : Service) (persisted : Option ServiceCheckHistory) :
    ServiceStatus :=
  let base : ServiceStatus :=
    { name := svc.name
      group := svc.group
      url := svc.url
      description := svc.description
      status := Status.unknown
      responseTime := 0
      responseTimeMs := 0
      statusCode := 0
      lastCheck := 0
      uptime := 100
      errorMessage := ""
      history := [] }
  match persisted with
  | none => base
  | some p =>
      let history := p.history.map ofCheckPoint
      let s := { base with
                   history := history
                   uptime := p.uptime
                   lastCheck := p.lastCheck
                   errorMessage := p.errorMessage }
      match history.getLast? with
      | none => s
      | some lastPoint =>
          { s with
            status := lastPoint.status
            responseTimeMs := lastPoint.responseTimeMs
            responseTime := lastPoint.responseTimeMs * millisecond
            statusCode := lastPoint.statusCode }

/-- Function `NewMonitor`: build the `statuses` map from the configured services,
warm-started from the persisted snapshots (`GetAllServiceCheckHistory`). -/
def newMonitor (services : List Service)
    (persisted : String → Option ServiceCheckHistory) : Store :=
  services.map (fun svc => (svc.name, restoreStatus svc (persisted svc.name)))

/-- Function `GetStatus` from monitor.go: look the service up and return a copy
(deep copies being reference-free here, the copy is the value itself;
the aliasing content of the copy is handled by the heap model below). -/
def getStatus (store : Store) (name : String) : Option ServiceStatus :=
  store.lookup name

/-- Buffer capacity of a subscriber channel created by `Subscribe`
(`make(chan *ServiceStatus, 100)`). -/
def subCapacity : Nat := 100

/-- Function `Subscribe`: register a fresh empty subscriber queue. -/
def subscribe (subs : List (List ServiceStatus)) : List (List ServiceStatus) :=
  subs ++ [[]]

/-- The non-blocking send of `notifySubscribers` (`select` with a
`default` branch) on one subscriber queue: enqueue when the buffer has
room, otherwise drop the update and leave the queue unchanged. -/
def trySend (q : List ServiceStatus) (x : ServiceStatus) : List ServiceStatus :=
  if q.length < subCapacity then q ++ [x] else q

/-- Function `notifySubscribers`: attempt a non-blocking send to every registered
subscriber. -/
def notifySubscribers (subs : List (List ServiceStatus)) (x : ServiceStatus) :
    List (List ServiceStatus) :=
  subs.map (fun q => trySend q x)

/-!
Heap model of the Status Store, capturing the slice aliasing that the
deep copies in `GetStatus` / `GetAllStatuses` / the broadcast copy of
`updateStatus` exist to avoid: each `History` slice is a reference into
a heap of arrays; copies allocate a fresh array and copy the contents
(`make` + `copy` in the Go source), while `updateStatus` writes through
the reference held by the store entry.
-/

/-- A `ServiceStatus` as laid out in memory: scalar fields by value, the
`History` slice as a reference into the array heap. -/
structure StatusRef where
  name : String
  group : String
  url : String
  description : String
  status : Status
  responseTime : Int
  responseTimeMs : Int
  statusCode : Int
  lastCheck : Nat
  uptime : ℚ
  errorMessage : String
  historyRef : Nat
deriving DecidableEq, Repr

/-- The memory of the monitor: the array heap (allocated ids are those below
`next`) and the `statuses` map. -/
structure Mem where
  arrays : Nat → List HistoryPoint
  next : Nat
  store : List (String × StatusRef)

/-- Every history reference held in the store is an allocated array. -/
def Mem.wf (m : Mem) : Prop :=
  ∀ p ∈ m.store, p.2.historyRef < m.next

/-- Function `GetStatus` in the heap model: copy the struct, allocate a fresh
array (`make([]HistoryPoint, len)`), copy the history into it
(`copy(s.History, status.History)`), and return the copy. -/
def hGetStatus (m : Mem) (name : String) : Option StatusRef × Mem :=
  match m.store.lookup name with
  | none => (none, m)
  | some st =>
      (some { st with historyRef := m.next },
       { m with
         arrays := Function.update m.arrays m.next (m.arrays st.historyRef)
         next := m.next + 1 })

/-- One step of the `GetAllStatuses` loop: copy one store entry into a
freshly allocated history array. -/
def hCopyOne (acc : List StatusRef × Mem) (entry : String × StatusRef) :
    List StatusRef × Mem :=
  let mm := acc.2
  let st := entry.2
  (acc.1 ++ [{ st with historyRef := mm.next }],
   { mm with
     arrays := Function.update mm.arrays mm.next (mm.arrays st.historyRef)
     next := mm.next + 1 })

/-- Function `GetAllStatuses` in the heap model: one deep copy per store entry. -/
def hGetAllStatuses (m : Mem) : List StatusRef × Mem :=
  m.store.foldl hCopyOne ([], m)

/-- Function `updateStatus` in the heap model: locate the entry, overwrite its
scalar fields, append/trim the history writing through the located entry and its own
reference, and allocate the fresh broadcast copy (`statusCopy`). The
persisted snapshot and the broadcast are not tracked here (the plain
model covers them); only the memory writes are. -/
def hUpdateStatus (m : Mem) (name : String) (status : Status)
    (responseTime : Int) (statusCode : Int) (errMsg : String) (now : Nat) :
    Mem :=
  match m.store.lookup name with
  | none => m
  | some st =>
      let point : HistoryPoint :=
        ⟨now, durationMilliseconds responseTime, status, statusCode⟩
      let history₁ := m.arrays st.historyRef ++ [point]
      let history₂ :=
        if history₁.length > maxHistory then
          history₁.drop (history₁.length - maxHistory)
        else
          history₁
      let uptime :=
        if history₂.length > 0 then
          ((history₂.countP (fun h => isUp h.status) : ℚ) / (history₂.length : ℚ)) * 100
        else
          st.uptime
      let st' := { st with
                     status := status
                     responseTime := responseTime
                     responseTimeMs := durationMilliseconds responseTime
                     statusCode := statusCode
                     lastCheck := now
                     errorMessage := errMsg
                     uptime := uptime }
      { arrays :=
          Function.update
            (Function.update m.arrays st.historyRef history₂)
            m.next history₂
        next := m.next + 1
        store := m.store.map (fun p => if p.1 = name then (name, st') else p) }

/-- The arguments of one `updateStatus` call, for iterating updates. -/
structure UpdateArgs where
  name : String
  status : Status
  responseTime : Int
  statusCode : Int
  errMsg : String
  now : Nat

/-- Run a sequence of `updateStatus` calls against the memory. -/
def hRunUpdates (m : Mem) (us : List UpdateArgs) : Mem :=
  us.foldl
    (fun mm u => hUpdateStatus mm u.name u.status u.responseTime u.statusCode
      u.errMsg u.now) m

/-- The array reference `r` is allocated and unreachable from the store:
no history reference held in the store points at it. Such a reference can only belong
to a snapshot handed out earlier. -/
def NotRef (m : Mem) (r : Nat) : Prop :=
  r < m.next ∧ ∀ p ∈ m.store, p.2.historyRef ≠ r

/-! Concrete sample values used to instantiate the theorems. -/

/-- A freshly initialised service status (as `NewMonitor` builds with no
persisted snapshot). -/
def blankStatus : ServiceStatus :=
  { name := "svc"
    group := ""
    url := ""
    description := ""
    status := Status.unknown
    responseTime := 0
    responseTimeMs := 0
    statusCode := 0
    lastCheck := 0
    uptime := 100
    errorMessage := ""
    history := [] }

/-- A status whose history is at the `maxHistory` bound. -/
def fullHistoryStatus : ServiceStatus :=
  { blankStatus with
      history := List.replicate maxHistory ⟨0, 0, Status.operational, 0⟩ }

/-- A sample configured service. -/
def sampleSvc : Service := ⟨"svc", "", "", ""⟩

/-- A sample persisted snapshot for `sampleSvc`. -/
def samplePersisted : ServiceCheckHistory :=
  ⟨"svc", [⟨0, 7, Status.down, 0⟩], 50, 3, "timeout"⟩

/-- A persisted-snapshot map holding `samplePersisted` for `sampleSvc`. -/
def samplePersistedMap : String → Option ServiceCheckHistory :=
  fun n => if n = "svc" then some samplePersisted else none

/-- A sample store entry for the heap model. -/
def sampleRef : StatusRef :=
  { name := "a"
    group := ""
    url := ""
    description := ""
    status := Status.unknown
    responseTime := 0
    responseTimeMs := 0
    statusCode := 0
    lastCheck := 0
    uptime := 100
    errorMessage := ""
    historyRef := 0 }

/-- A sample heap-model memory with one service. -/
def sampleMem : Mem :=
  { arrays := fun _ => []
    next := 1
    store := [("a", sampleRef)] }

/-- A sample update call for the heap model. -/
def sampleUpdate : UpdateArgs := ⟨"a", Status.down, 0, 0, "", 5⟩

/-! Helper lemmas. -/

theorem overallCounts_go (l : List Status) (a b : Nat) :
    l.foldl
      (fun acc s =>
        match s with
        | Status.down => (acc.1 + 1, acc.2)
        | Status.degraded => (acc.1, acc.2 + 1)
        | _ => acc)
      (a, b) =
    (a + l.countP (fun s => decide (s = Status.down)),
     b + l.countP (fun s => decide (s = Status.degraded))) := by
  induction l generalizing a b with
  | nil => simp
  | cons hd tl ih =>
      cases hd <;> simp [List.countP_cons, ih] <;> omega

theorem overallCounts_eq (l : List Status) :
    overallCounts l =
      (l.countP (fun s => decide (s = Status.down)),
       l.countP (fun s => decide (s = Status.degraded))) := by
  simpa using overallCounts_go l 0 0

/-- C1: `GetOverallStatus` is operational on an empty store; otherwise it
is down exactly when strictly more than half the services are down,
degraded when any service is down or degraded, and operational
otherwise. -/
theorem getOverallStatus_policy (l : List Status) :
    GetOverallStatus l =
      if l.length = 0 then Status.operational
      else if l.length / 2 < l.countP (fun s => decide (s = Status.down)) then
        Status.down
      else if 0 < l.countP (fun s => decide (s = Status.down)) ∨
              0 < l.countP (fun s => decide (s = Status.degraded)) then
        Status.degraded
      else Status.operational := by
  unfold GetOverallStatus
  rw [overallCounts_eq]
  simp only [gt_iff_lt, Bool.or_eq_true, decide_eq_true_eq]

/-- C6 counterexample: the QUIC probe packet is not 18 bytes long. -/
theorem quicProbe_not_eighteen_bytes : quicProbe.length ≠ 18 := by decide

/-- C6 (amended): the QUIC probe is a 15-byte minimal long-header packet:
byte `0xC0`, the 4-byte version `00 00 00 01`, a 1-byte DCID length
`0x08`, 8 zero DCID bytes, and a 1-byte SCID length `0x00`. -/
theorem quicProbe_bytes :
    quicProbe.length = 15 ∧
    quicProbe =
      [0xc0] ++ [0x00, 0x00, 0x00, 0x01] ++ [0x08] ++
        List.replicate 8 0x00 ++ [0x00] := by
  constructor <;> rfl

/-- C4: HTTP classification. With matching status code and body,
response time below 2s is operational, in [2s, 5s) degraded with message
"slow response time", at or above 5s degraded with message "very slow
response time"; a body mismatch or a status-code mismatch is down. -/
theorem classifyHTTP_policy (sc es rt : Int) (bm : Bool) :
    (sc = es → bm = true → rt < 2 * second →
      classifyHTTP sc es bm rt = (Status.operational, "")) ∧
    (sc = es → bm = true → 2 * second ≤ rt → rt < 5 * second →
      classifyHTTP sc es bm rt = (Status.degraded, "slow response time")) ∧
    (sc = es → bm = true → 5 * second ≤ rt →
      classifyHTTP sc es bm rt = (Status.degraded, "very slow response time")) ∧
    (bm = false → (classifyHTTP sc es bm rt).1 = Status.down) ∧
    (sc ≠ es → (classifyHTTP sc es bm rt).1 = Status.down) := by
  unfold classifyHTTP
  refine ⟨?_, ?_, ?_, ?_, ?_⟩
  · rintro rfl rfl h
    rw [if_pos ⟨rfl, rfl⟩, if_pos h]
  · rintro rfl rfl h1 h2
    rw [if_pos ⟨rfl, rfl⟩, if_neg (not_lt.2 h1), if_pos h2]
  · rintro rfl rfl h1
    have h2 : (2 : Int) * second ≤ rt :=
      le_trans (by norm_num [second]) h1
    rw [if_pos ⟨rfl, rfl⟩, if_neg (not_lt.2 h2), if_neg (not_lt.2 h1)]
  · rintro rfl
    rw [if_neg (by simp), if_pos (by simp)]
  · intro h
    rw [if_neg (by simp [h])]
    cases bm <;> simp

/-- C5 counterexample: with configured warn-days w = 5 and d = 6 whole
days until expiry we have d > w, yet the probe classifies the service
down (because d ≤ 7), not operational as the last arm of the claim states. -/
theorem classifyTLS_warn_below_seven :
    (5 : Int) < 6 ∧
    classifyTLS 6 5 = ⟨Status.down, 6, "certificate expires in 6 days"⟩ ∧
    Status.down ≠ Status.operational := by
  refine ⟨by norm_num, by decide, by decide⟩

/-- C5 (amended): for the TLS probe with d whole days until expiry and
w the configured warn-days (30 when unset): d ≤ 0 is down "certificate
expired"; 0 < d ≤ 7 is down stating the days remaining; 7 < d ≤ w is
degraded stating the days remaining; d > w **and d > 7** is operational;
and the recorded numeric code always equals d. -/
theorem classifyTLS_policy (d w : Int) :
    (d ≤ 0 → classifyTLS d w = ⟨Status.down, d, "certificate expired"⟩) ∧
    (0 < d → d ≤ 7 →
      classifyTLS d w = ⟨Status.down, d, s!"certificate expires in {d} days"⟩) ∧
    (7 < d → d ≤ (if w = 0 then 30 else w) →
      classifyTLS d w = ⟨Status.degraded, d, s!"certificate expires in {d} days"⟩) ∧
    ((if w = 0 then 30 else w) < d → 7 < d →
      classifyTLS d w = ⟨Status.operational, d, ""⟩) ∧
    (classifyTLS d w).code = d := by
  unfold classifyTLS
  refine ⟨?_, ?_, ?_, ?_, ?_⟩
  · intro h
    rw [if_pos h]
  · intro h1 h2
    rw [if_neg (not_le.2 h1), if_pos h2]
  · intro h1 h2
    rw [if_neg (not_le.2 (lt_trans (by norm_num) h1)),
        if_neg (not_le.2 h1), if_pos h2]
  · intro h1 h2
    rw [if_neg (not_le.2 (lt_trans (by norm_num) h2)),
        if_neg (not_le.2 h2), if_neg (not_le.2 h1)]
  · dsimp only
    split_ifs <;> rfl

/-- C8: each subscriber queue is bounded by the channel capacity 100;
a publish to a full queue leaves it unchanged (silent drop) and the
publisher still completes; a publish is attempted on every registered
subscriber; and a full queue stays unchanged under any number of further
publishes. -/
theorem broadcast_drop_policy (q : List ServiceStatus) (x : ServiceStatus)
    (subs : List (List ServiceStatus)) (updates : List ServiceStatus)
    (i : Nat) :
    (q.length ≤ subCapacity → (trySend q x).length ≤ subCapacity) ∧
    (q.length = subCapacity → trySend q x = q) ∧
    ((notifySubscribers subs x)[i]? = (subs[i]?).map (fun qq => trySend qq x)) ∧
    (q.length = subCapacity → updates.foldl trySend q = q) ∧
    (subscribe subs).length = subs.length + 1 ∧
    ([] : List ServiceStatus).length < subCapacity := by
  refine ⟨?_, ?_, ?_, ?_, ?_, ?_⟩
  · intro h
    unfold trySend
    split
    · simp only [List.length_append, List.length_cons, List.length_nil]
      omega
    · exact h
  · intro h
    unfold trySend
    rw [if_neg (by omega)]
  · unfold notifySubscribers
    exact List.getElem?_map ..
  · intro h
    induction updates with
    | nil => rfl
    | cons u us ih =>
        have hfull : trySend q u = q := by
          unfold trySend
          rw [if_neg (by omega)]
        simpa [hfull] using ih
  · simp [subscribe]
  · simp [subCapacity]

/-- C10: `updateStatus` for a name with no entry in the store is a
complete no-op: the store is unchanged, nothing is persisted, and
nothing is published. -/
theorem updateStatus_missing_noop (store : Store) (name : String)
    (st : Status) (rt code : Int) (msg : String) (now : Nat)
    (h : store.lookup name = none) :
    updateStatus store name st rt code msg now = (store, none, none) := by
  unfold updateStatus
  rw [h]

/-- Witness for `classifyHTTP_policy`: a matching response taking 3
seconds is degraded with message "slow response time". -/
theorem classifyHTTP_policy_witness :
    classifyHTTP 200 200 true (3 * second) = (Status.degraded, "slow response time") :=
  (classifyHTTP_policy 200 200 (3 * second) true).2.1 rfl rfl
    (by norm_num [second]) (by norm_num [second])

/-- Witness for `classifyTLS_policy`: a certificate expiring in 20 days
with warn-days 30 is degraded. -/
theorem classifyTLS_policy_witness :
    classifyTLS 20 30 =
      ⟨Status.degraded, 20, s!"certificate expires in {(20 : Int)} days"⟩ :=
  (classifyTLS_policy 20 30).2.2.1 (by norm_num) (by norm_num)

/-- Witness for `broadcast_drop_policy`: a full queue of 100 updates is
unchanged by two further publishes. -/
theorem broadcast_drop_policy_witness :
    List.foldl trySend (List.replicate 100 blankStatus)
        [blankStatus, blankStatus] =
      List.replicate 100 blankStatus :=
  (broadcast_drop_policy (List.replicate 100 blankStatus) blankStatus []
    [blankStatus, blankStatus] 0).2.2.2.1 (by simp [subCapacity])

/-- Witness for `updateStatus_missing_noop`: updating an absent service
in the empty store changes nothing. -/
theorem updateStatus_missing_noop_witness :
    updateStatus [] "absent" Status.down 0 0 "" 0 = ([], none, none) :=
  updateStatus_missing_noop [] "absent" Status.down 0 0 "" 0 rfl

theorem applyCheck_history_length (s : ServiceStatus) (st : Status)
    (rt code : Int) (msg : String) (now : Nat) :
    (applyCheck s st rt code msg now).history.length =
      min (s.history.length + 1) maxHistory := by
  unfold applyCheck
  dsimp only
  split
  next h =>
    simp only [List.length_drop, List.length_append, List.length_cons,
      List.length_nil, maxHistory] at *
    omega
  next h =>
    simp only [List.length_append, List.length_cons, List.length_nil,
      maxHistory] at *
    omega

theorem trim_at_bound (h : List HistoryPoint) (pt : HistoryPoint)
    (hl : h.length = maxHistory) :
    (h ++ [pt]).drop ((h ++ [pt]).length - maxHistory) = h.drop 1 ++ [pt] := by
  have hlen : (h ++ [pt]).length = maxHistory + 1 := by simp [hl]
  rw [hlen]
  have h1 : maxHistory + 1 - maxHistory = 1 := by omega
  rw [h1, List.drop_append_of_le_length (by rw [hl]; norm_num [maxHistory])]

theorem restoreStatus_some_history (svc : Service) (p : ServiceCheckHistory) :
    (restoreStatus svc (some p)).history = p.history.map ofCheckPoint := by
  unfold restoreStatus
  dsimp only
  split <;> rfl

/-- C2: the per-service history is always bounded by 90 points: after
any `updateStatus` the length is at most `maxHistory`; appending to a
history of exactly 90 points drops exactly the oldest point and keeps
the 90 most recent in order; construction bounds the history (at 0 with
no snapshot, and within the bound for any persisted snapshot within the
bound — every snapshot this engine persists is, being written after the
trim); and the bound is preserved store-wide by `updateStatus`. -/
theorem history_bound_fifo (store : Store) (s : ServiceStatus) (st : Status)
    (rt code : Int) (msg : String) (now : Nat) (svc : Service)
    (p : ServiceCheckHistory) (name : String) :
    (applyCheck s st rt code msg now).history.length ≤ maxHistory ∧
    (s.history.length = maxHistory →
      (applyCheck s st rt code msg now).history =
        s.history.drop 1 ++ [⟨now, durationMilliseconds rt, st, code⟩]) ∧
    (restoreStatus svc none).history.length ≤ maxHistory ∧
    (p.history.length ≤ maxHistory →
      (restoreStatus svc (some p)).history.length ≤ maxHistory) ∧
    ((∀ q ∈ store, q.2.history.length ≤ maxHistory) →
      ∀ q ∈ (updateStatus store name st rt code msg now).1,
        q.2.history.length ≤ maxHistory) := by
  refine ⟨?_, ?_, ?_, ?_, ?_⟩
  · rw [applyCheck_history_length]
    exact min_le_right _ _
  · intro h
    unfold applyCheck
    dsimp only
    rw [if_pos (by simp [h, maxHistory])]
    exact trim_at_bound s.history _ h
  · simp [restoreStatus]
  · intro h
    rw [restoreStatus_some_history, List.length_map]
    exact h
  · intro hb q hq
    unfold updateStatus at hq
    cases hlook : store.lookup name with
    | none =>
        rw [hlook] at hq
        exact hb q hq
    | some s0 =>
        rw [hlook] at hq
        dsimp only at hq
        unfold storeSet at hq
        rcases List.mem_map.1 hq with ⟨q0, hq0, rfl⟩
        split_ifs
        · dsimp only
          rw [applyCheck_history_length]
          exact min_le_right _ _
        · exact hb q0 hq0

/-- Witness for `history_bound_fifo` at concrete inputs: appending to a
90-point history drops the oldest point; restoring a 1-point snapshot
stays within the bound; and the singleton store keeps the bound after
an update. -/
theorem history_bound_fifo_witness :
    (applyCheck fullHistoryStatus Status.down 0 0 "" 1).history =
        fullHistoryStatus.history.drop 1 ++
          [⟨1, durationMilliseconds 0, Status.down, 0⟩] ∧
    (restoreStatus sampleSvc (some samplePersisted)).history.length ≤ maxHistory ∧
    ("svc", applyCheck blankStatus Status.down 0 0 "" 1).2.history.length ≤
      maxHistory := by
  have h := history_bound_fifo [("svc", blankStatus)] fullHistoryStatus
    Status.down 0 0 "" 1 sampleSvc samplePersisted "svc"
  have h2 := history_bound_fifo [("svc", blankStatus)] blankStatus
    Status.down 0 0 "" 1 sampleSvc samplePersisted "svc"
  refine ⟨h.2.1 (by simp [fullHistoryStatus, blankStatus, maxHistory]),
          h.2.2.2.1 (by simp [samplePersisted, maxHistory]),
          h2.2.2.2.2 (by simp [blankStatus, maxHistory])
            ("svc", applyCheck blankStatus Status.down 0 0 "" 1) ?_⟩
  simp [updateStatus, storeSet, List.lookup, blankStatus]

theorem lookup_storeSet (store : Store) (name : String) (v : ServiceStatus)
    (s0 : ServiceStatus) (h : store.lookup name = some s0) :
    (storeSet store name v).lookup name = some v := by
  induction store with
  | nil => simp [List.lookup] at h
  | cons hd tl ih =>
      obtain ⟨k, w⟩ := hd
      unfold storeSet at *
      by_cases hk : k = name
      · subst hk
        simp only [List.map_cons]
        rw [if_pos trivial]
        simp [List.lookup]
      · have hb : (name == k) = false := by simp [Ne.symm hk]
        simp only [List.lookup, hb] at h
        simp only [List.map_cons]
        dsimp only
        rw [if_neg hk]
        simp only [List.lookup, hb]
        exact ih h

/-- C3: after every update the uptime is exactly
100 × (points classified operational or degraded) / len(history),
recomputed from the full current history; and a service constructed
with no persisted snapshot has an empty history and uptime 100. -/
theorem uptime_recomputed (store : Store) (s : ServiceStatus) (st : Status)
    (rt code : Int) (msg : String) (now : Nat) (svc : Service) (name : String) :
    (applyCheck s st rt code msg now).uptime =
      100 * ((applyCheck s st rt code msg now).history.countP
          (fun h => isUp h.status) : ℚ) /
        ((applyCheck s st rt code msg now).history.length : ℚ) ∧
    (restoreStatus svc none).history = [] ∧
    (restoreStatus svc none).uptime = 100 ∧
    (∀ s0, store.lookup name = some s0 →
      (updateStatus store name st rt code msg now).1.lookup name =
        some (applyCheck s0 st rt code msg now)) := by
  refine ⟨?_, rfl, rfl, ?_⟩
  · unfold applyCheck
    dsimp only
    split
    next h =>
      rw [if_pos]
      · ring
      · simp only [List.length_drop, List.length_append, List.length_cons,
          List.length_nil, maxHistory] at *
        omega
    next h =>
      rw [if_pos]
      · ring
      · simp
  · intro s0 h
    unfold updateStatus
    rw [h]
    exact lookup_storeSet store name _ s0 h

/-- Witness for `uptime_recomputed`: updating the singleton store stores
the updated status under the name of the service. -/
theorem uptime_recomputed_witness :
    (updateStatus [("svc", blankStatus)] "svc" Status.down 0 0 "" 1).1.lookup
        "svc" = some (applyCheck blankStatus Status.down 0 0 "" 1) :=
  (uptime_recomputed [("svc", blankStatus)] blankStatus Status.down 0 0 "" 1
    sampleSvc "svc").2.2.2 blankStatus rfl

theorem lookup_newMonitor (services : List Service)
    (persisted : String → Option ServiceCheckHistory) (svc : Service)
    (hmem : svc ∈ services) (hnodup : (services.map Service.name).Nodup) :
    (newMonitor services persisted).lookup svc.name =
      some (restoreStatus svc (persisted svc.name)) := by
  induction services with
  | nil => cases hmem
  | cons hd tl ih =>
      rw [List.map_cons, List.nodup_cons] at hnodup
      unfold newMonitor at *
      rcases List.mem_cons.1 hmem with rfl | hmem
      · simp [List.lookup]
      · have hne : svc.name ≠ hd.name := by
          intro he
          exact hnodup.1 (he ▸ List.mem_map_of_mem Service.name hmem)
        have hb : (svc.name == hd.name) = false := by simp [hne]
        simp only [List.map_cons, List.lookup, hb]
        exact ih hmem hnodup.2

theorem restoreStatus_some_eq (svc : Service) (p : ServiceCheckHistory)
    (lastCp : CheckPoint) (hlast : p.history.getLast? = some lastCp) :
    restoreStatus svc (some p) =
      { name := svc.name
        group := svc.group
        url := svc.url
        description := svc.description
        status := lastCp.status
        responseTime := lastCp.responseTimeMs * millisecond
        responseTimeMs := lastCp.responseTimeMs
        statusCode := lastCp.statusCode
        lastCheck := p.lastCheck
        uptime := p.uptime
        errorMessage := p.errorMessage
        history := p.history.map ofCheckPoint } := by
  unfold restoreStatus
  dsimp only
  have hm : (p.history.map ofCheckPoint).getLast? = some (ofCheckPoint lastCp) := by
    rw [List.getLast?_map, hlast]
    rfl
  rw [hm]
  rfl

/-- C7: a freshly constructed engine with a persisted snapshot, queried
before any new check runs, returns exactly the persisted history,
uptime, last-check timestamp and error message, and a classification,
response time and numeric code taken from the most recent restored
history point. -/
theorem warm_start_restores (services : List Service)
    (persisted : String → Option ServiceCheckHistory) (svc : Service)
    (p : ServiceCheckHistory) (lastCp : CheckPoint)
    (hmem : svc ∈ services)
    (hnodup : (services.map Service.name).Nodup)
    (hp : persisted svc.name = some p)
    (hlast : p.history.getLast? = some lastCp) :
    ∃ st, getStatus (newMonitor services persisted) svc.name = some st ∧
      st.history = p.history.map ofCheckPoint ∧
      st.uptime = p.uptime ∧
      st.lastCheck = p.lastCheck ∧
      st.errorMessage = p.errorMessage ∧
      st.status = lastCp.status ∧
      st.responseTimeMs = lastCp.responseTimeMs ∧
      st.responseTime = lastCp.responseTimeMs * millisecond ∧
      st.statusCode = lastCp.statusCode := by
  have hlook := lookup_newMonitor services persisted svc hmem hnodup
  rw [hp] at hlook
  have heq := restoreStatus_some_eq svc p lastCp hlast
  refine ⟨restoreStatus svc (some p), hlook, ?_, ?_, ?_, ?_, ?_, ?_, ?_, ?_⟩ <;>
    rw [heq]

/-- Witness for `warm_start_restores`: a one-service engine restored
from `samplePersisted` reports its persisted snapshot. -/
theorem warm_start_restores_witness :
    ∃ st, getStatus (newMonitor [sampleSvc] samplePersistedMap)
        sampleSvc.name = some st ∧
      st.history = samplePersisted.history.map ofCheckPoint ∧
      st.uptime = samplePersisted.uptime ∧
      st.lastCheck = samplePersisted.lastCheck ∧
      st.errorMessage = samplePersisted.errorMessage ∧
      st.status = Status.down ∧
      st.responseTimeMs = 7 ∧
      st.responseTime = 7 * millisecond ∧
      st.statusCode = 0 :=
  warm_start_restores [sampleSvc] samplePersistedMap sampleSvc samplePersisted
    ⟨0, 7, Status.down, 0⟩ (by simp) (by simp)
    (by simp [samplePersistedMap, sampleSvc]) rfl

theorem mem_of_lookup {β : Type} (l : List (String × β)) (a : String) (b : β)
    (h : l.lookup a = some b) : (a, b) ∈ l := by
  induction l with
  | nil => simp [List.lookup] at h
  | cons hd tl ih =>
      obtain ⟨k, w⟩ := hd
      by_cases hk : a = k
      · subst hk
        simp only [List.lookup, beq_self_eq_true] at h
        cases h
        exact List.mem_cons_self _ _
      · have hb : (a == k) = false := by simp [hk]
        simp only [List.lookup, hb] at h
        exact List.mem_cons_of_mem _ (ih h)

theorem hUpdateStatus_preserves (m : Mem) (r : Nat) (u : UpdateArgs)
    (h : NotRef m r) :
    NotRef (hUpdateStatus m u.name u.status u.responseTime u.statusCode
      u.errMsg u.now) r ∧
    (hUpdateStatus m u.name u.status u.responseTime u.statusCode
      u.errMsg u.now).arrays r = m.arrays r := by
  unfold hUpdateStatus
  cases hlook : m.store.lookup u.name with
  | none => exact ⟨h, rfl⟩
  | some st =>
      have hst : (u.name, st) ∈ m.store := mem_of_lookup _ _ _ hlook
      have hstr : st.historyRef ≠ r := h.2 _ hst
      dsimp only
      refine ⟨⟨Nat.lt_succ_of_lt h.1, ?_⟩, ?_⟩
      · intro p hp
        rcases List.mem_map.1 hp with ⟨q, hq, rfl⟩
        by_cases hqn : q.1 = u.name
        · rw [if_pos hqn]
          exact hstr
        · rw [if_neg hqn]
          exact h.2 q hq
      · rw [Function.update_noteq (Nat.ne_of_lt h.1),
            Function.update_noteq (Ne.symm hstr)]

theorem hRunUpdates_preserves (m : Mem) (r : Nat) (us : List UpdateArgs)
    (h : NotRef m r) :
    (hRunUpdates m us).arrays r = m.arrays r := by
  induction us generalizing m with
  | nil => rfl
  | cons u us ih =>
      have hu := hUpdateStatus_preserves m r u h
      unfold hRunUpdates at *
      simp only [List.foldl_cons]
      rw [ih _ hu.1, hu.2]

theorem hGetAllStatuses_go (L : List (String × StatusRef))
    (acc : List StatusRef) (mm : Mem) :
    (L.foldl hCopyOne (acc, mm)).2.store = mm.store ∧
    (L.foldl hCopyOne (acc, mm)).2.next = mm.next + L.length ∧
    ∀ snap ∈ (L.foldl hCopyOne (acc, mm)).1,
      snap ∈ acc ∨
        (mm.next ≤ snap.historyRef ∧ snap.historyRef < mm.next + L.length) := by
  induction L generalizing acc mm with
  | nil => exact ⟨rfl, by simp, fun snap hs => Or.inl hs⟩
  | cons e L ih =>
      simp only [List.foldl_cons, List.length_cons]
      have he : hCopyOne (acc, mm) e =
          (acc ++ [{ e.2 with historyRef := mm.next }],
           { mm with
             arrays := Function.update mm.arrays mm.next (mm.arrays e.2.historyRef)
             next := mm.next + 1 }) := rfl
      rw [he]
      have h := ih (acc ++ [{ e.2 with historyRef := mm.next }])
        { mm with
          arrays := Function.update mm.arrays mm.next (mm.arrays e.2.historyRef)
          next := mm.next + 1 }
      refine ⟨h.1, ?_, ?_⟩
      · rw [h.2.1]
        show mm.next + 1 + L.length = mm.next + (L.length + 1)
        omega
      intro snap hsnap
      rcases h.2.2 snap hsnap with hacc | hb
      · rcases List.mem_append.1 hacc with hacc | hnew
        · exact Or.inl hacc
        · right
          rcases List.mem_singleton.1 hnew with rfl
          show mm.next ≤ mm.next ∧ mm.next < mm.next + (L.length + 1)
          omega
      · right
        have hb2 : mm.next + 1 ≤ snap.historyRef ∧
            snap.historyRef < mm.next + 1 + L.length := hb
        omega

/-- C9: snapshots are deep copies independent of the Status Store:
`GetStatus` on an absent name returns not-found; a snapshot returned by
`GetStatus` or `GetAllStatuses` keeps its history contents (the array
its fresh `historyRef` denotes) unchanged under any later sequence of
`updateStatus` calls, for the same or any other service — the scalar
fields, copied by value, are immutable parts of the returned record. -/
theorem snapshots_independent (m : Mem) (name : String) (hwf : m.wf) :
    (m.store.lookup name = none → (hGetStatus m name).1 = none) ∧
    (∀ snap m₁, hGetStatus m name = (some snap, m₁) →
      ∀ us : List UpdateArgs,
        (hRunUpdates m₁ us).arrays snap.historyRef =
          m₁.arrays snap.historyRef) ∧
    (∀ snap, snap ∈ (hGetAllStatuses m).1 →
      ∀ us : List UpdateArgs,
        (hRunUpdates (hGetAllStatuses m).2 us).arrays snap.historyRef =
          (hGetAllStatuses m).2.arrays snap.historyRef) := by
  refine ⟨?_, ?_, ?_⟩
  · intro h
    unfold hGetStatus
    rw [h]
  · intro snap m₁ heq us
    unfold hGetStatus at heq
    cases hlook : m.store.lookup name with
    | none =>
        rw [hlook] at heq
        cases heq
    | some st =>
        rw [hlook] at heq
        dsimp only at heq
        obtain ⟨hsnap, hm₁⟩ := Prod.mk.injEq .. ▸ heq
        cases Option.some.inj hsnap
        subst hm₁
        apply hRunUpdates_preserves
        constructor
        · exact Nat.lt_succ_self _
        · intro p hp
          exact Nat.ne_of_lt (hwf p hp)
  · intro snap hsnap us
    have h := hGetAllStatuses_go m.store [] m
    unfold hGetAllStatuses at *
    rcases h.2.2 snap hsnap with hacc | hb
    · cases hacc
    · apply hRunUpdates_preserves
      constructor
      · rw [h.2.1]
        exact hb.2
      · intro p hp
        rw [h.1] at hp
        exact Nat.ne_of_lt (Nat.lt_of_lt_of_le (hwf p hp) hb.1)

/-- Witness for `snapshots_independent`: in the one-service memory, a
missing name reads as not-found, and the snapshot copied out for "a"
(array reference 1) keeps its contents across a later update of "a". -/
theorem snapshots_independent_witness :
    (hGetStatus sampleMem "b").1 = none ∧
    (hRunUpdates (hGetStatus sampleMem "a").2 [sampleUpdate]).arrays 1 =
      (hGetStatus sampleMem "a").2.arrays 1 := by
  have hwf : sampleMem.wf := by
    intro p hp
    rcases List.mem_singleton.1 hp with rfl
    show sampleRef.historyRef < 1
    norm_num [sampleRef]
  refine ⟨(snapshots_independent sampleMem "b" hwf).1 rfl, ?_⟩
  exact (snapshots_independent sampleMem "a" hwf).2.1
    { sampleRef with historyRef := 1 } (hGetStatus sampleMem "a").2 rfl
    [sampleUpdate]

end StatusMonitor

